import Mathlib

/-!
Verification of the Lab_backend server against its specification.

The development shallowly embeds the three components the specification
describes:

* the Outbound Request Serializer (`requestQueue` / `isProcessing` /
  `processQueue` / the chat handler in `src/unnamed/part_001`, identical in
  `src/server.js`), modelled as an explicit event-step machine over the
  single-threaded JavaScript run-to-completion semantics;
* the Credential and Verification Manager: the OTP variant
  (`src/unnamed/part_003`) and the in-memory numeric-code variant
  (`src/unnamed/part_000`), plus the login of `src/auth-routes.js`;
* the Resource Relevance Scorer: `getRelevantUrls` of `src/server.js` and
  of `src/unnamed/part_001`.

External collaborators are modelled as the spec directs: MongoDB as a list
of records operated on in insertion order (`findOne` returns the first
match, `findOneAndDelete` removes the first match), bcrypt as an injective
tagging hash, e-mail delivery and the generative call as opaque events.
-/

namespace LabBackend

/-! ## JavaScript string primitives

All string work is done on `List Char` so that every definition reduces in
the kernel.  `jsIncludes` is `String.prototype.includes`, `splitChars`
splits at every separator character (callers filter empty fields, matching
splitting on a `+`-quantified character-class regex), `strLower` is
`String.prototype.toLowerCase` for the ASCII strings the server handles. -/

def strLower (s : String) : String := String.mk (s.data.map Char.toLower)

def listContainsSub (needle : List Char) : List Char → Bool
  | [] => needle.isEmpty
  | c :: rest => needle.isPrefixOf (c :: rest) || listContainsSub needle rest

/-- `hay.includes(needle)` of JavaScript. -/
def jsIncludes (hay needle : String) : Bool := listContainsSub needle.data hay.data

/-- Split a character list at every character satisfying `p`, keeping empty
fields (the semantics of `String.prototype.split` on a single-character
separator). -/
def splitChars (p : Char → Bool) : List Char → List (List Char)
  | [] => [[]]
  | c :: rest =>
    match splitChars p rest with
    | [] => [[]]
    | t :: ts => if p c then [] :: t :: ts else (c :: t) :: ts

def splitStr (p : Char → Bool) (s : String) : List String :=
  (splitChars p s.data).map String.mk

/-- `url.split('/')`. -/
def splitSlash (s : String) : List String := splitStr (fun c => c = '/') s

/-- `fileName.split('.')`. -/
def splitDot (s : String) : List String := splitStr (fun c => c = '.') s

/-- Splitting on the regex `/\s+/` followed by dropping empty tokens.  A
`+`-quantified class never produces interior empty fields, so this agrees
with JavaScript on every query without leading or trailing whitespace; the
callers below additionally filter by token length or emptiness. -/
def splitWs (s : String) : List String :=
  (splitStr Char.isWhitespace s).filter (fun w => w ≠ "")

/-- `str.endsWith(post)`. -/
def jsEndsWith (s post : String) : Bool := post.data.isSuffixOf s.data

/-! ## Outbound Request Serializer (src/unnamed/part_001, lines 302-344,
chat handler lines 233-239; src/server.js lines 313-358 is the same code)

The global mutable state is `requestQueue`, `isProcessing` and the set of
pending `setTimeout` callbacks.  The JavaScript runtime is single threaded,
so each of the following runs atomically (run-to-completion up to the one
`await` inside `processQueue`):

* the chat handler: `requestQueue.push(item); if (!isProcessing) processQueue();`
* the settlement of the in-flight generation call: respond, then
  `finally { isProcessing = false; setTimeout(processQueue, RATE_LIMIT_DELAY); }`
* a timer firing: `processQueue()`.

The synchronous prefix of `processQueue` is
`if (isProcessing || requestQueue.length === 0) return;
 isProcessing = true; const item = requestQueue.shift(); ...` up to the
`await model.generateContent(prompt)`, embedded as `processQueueBody`.
Requests are identified by numbers; times are clock readings in
milliseconds.  `startedCalls` and `completedCalls` log each outbound call
with its start, resp. settlement, time; `arrivals` logs enqueue order. -/

def RATE_LIMIT_DELAY : Nat := 2000

structure SerState where
  requestQueue : List Nat
  isProcessing : Bool
  inFlight : List Nat
  timers : List Nat
  now : Nat
  arrivals : List Nat
  startedCalls : List (Nat × Nat)
  completedCalls : List (Nat × Nat)
deriving Repr, DecidableEq

def serInit : SerState := ⟨[], false, [], [], 0, [], [], []⟩

/-- The synchronous prefix of `processQueue`, invoked at time `t`. -/
def processQueueBody (s : SerState) (t : Nat) : SerState :=
  match s.requestQueue, s.isProcessing with
  | r :: rest, false =>
    { s with requestQueue := rest, isProcessing := true,
             inFlight := s.inFlight ++ [r],
             startedCalls := s.startedCalls ++ [(r, t)] }
  | _, _ => s

inductive SerEv where
  /-- a chat request `r` reaches the handler at time `t` -/
  | arrive (r : Nat) (t : Nat)
  /-- the in-flight generation call settles (fulfilled or rejected) at `t` -/
  | complete (t : Nat)
  /-- the `setTimeout` callback scheduled for `tf` runs at time `t ≥ tf` -/
  | timerFire (tf : Nat) (t : Nat)
deriving Repr, DecidableEq

/-- One event of the serializer; `none` when the event is not enabled. -/
def serStep (s : SerState) : SerEv → Option SerState
  | .arrive r t =>
    if t < s.now then none else
    let s1 := { s with now := t, requestQueue := s.requestQueue ++ [r],
                       arrivals := s.arrivals ++ [r] }
    some (if s1.isProcessing then s1 else processQueueBody s1 t)
  | .complete t =>
    match s.inFlight with
    | [] => none
    | c :: rest =>
      if t < s.now then none else
      some { s with now := t, inFlight := rest, isProcessing := false,
                    completedCalls := s.completedCalls ++ [(c, t)],
                    timers := s.timers ++ [t + RATE_LIMIT_DELAY] }
  | .timerFire tf t =>
    if tf ∈ s.timers ∧ tf ≤ t ∧ s.now ≤ t then
      some (processQueueBody { s with timers := s.timers.erase tf, now := t } t)
    else none

def serRun (s : SerState) : List SerEv → Option SerState
  | [] => some s
  | e :: evs =>
    match serStep s e with
    | none => none
    | some s1 => serRun s1 evs

/-! ## Resource Relevance Scorer

Two variants are embedded: `getRelevantUrlsServer` is `getRelevantUrls` of
`src/server.js` (lines 67-143) and `getRelevantUrlsDraft` is
`getRelevantUrls` of `src/unnamed/part_001` (lines 80-136).
`decodeURIComponent` is modelled as the identity: the modelled corpus
contains no percent-escapes.  `Array.prototype.sort` with the comparator
`(a, b) => b.score - a.score` is a stable descending sort, modelled by
stable insertion (`sortByScoreDesc`). -/

/-- `decodeURIComponent`, on inputs without percent-escapes. -/
def decodeURIComp (s : String) : String := s

/-- Insert `x` after every already-placed element of score `≥ f x`
(preserves the original order of equal scores, as a stable sort does). -/
def insertScoreDesc (f : α → Nat) (acc : List α) (x : α) : List α :=
  match acc with
  | [] => [x]
  | y :: ys => if f x ≤ f y then y :: insertScoreDesc f ys x else x :: y :: ys

/-- Stable sort, descending by `f`. -/
def sortByScoreDesc (f : α → Nat) (l : List α) : List α :=
  l.foldl (insertScoreDesc f) []

def imageExts : List String := ["jpg", "jpeg", "png", "gif"]

/-- Icon glyph chosen from the file extension (shared by both variants). -/
def fileIcon (fileType : String) : String :=
  if fileType = "pdf" then "📄"
  else if fileType ∈ imageExts then "🖼️" else "•"

/-- The first match of the regex `/phy\s*\d{3}/` in an already lowercased
character list, as the matched characters.  `\s*` is greedy, and a shorter
run of whitespace can never be followed by a digit, so taking the whole
whitespace run is exact. -/
def courseAt (l : List Char) : Option (List Char) :=
  match l with
  | 'p' :: 'h' :: 'y' :: rest =>
    let ws := rest.takeWhile Char.isWhitespace
    match rest.dropWhile Char.isWhitespace with
    | d1 :: d2 :: d3 :: _ =>
      if d1.isDigit && d2.isDigit && d3.isDigit then
        some (['p', 'h', 'y'] ++ ws ++ [d1, d2, d3])
      else none
    | _ => none
  | _ => none

def courseScan : List Char → Option (List Char)
  | [] => none
  | c :: rest =>
    match courseAt (c :: rest) with
    | some m => some m
    | none => courseScan rest

/-- `query.match(/phy\s*\d{3}/i)` on a lowercased query, followed by
`.replace(/\s+/g, '').toLowerCase()`. -/
def courseToken (q : String) : Option String :=
  (courseScan q.data).map fun m =>
    strLower (String.mk (m.filter (fun c => !c.isWhitespace)))

/-- The per-URL score of `getRelevantUrls` in `src/unnamed/part_001`.
`urlParts[urlParts.length - 2] || ''` is the category (parent segment),
`urlParts[urlParts.length - 1] || ''` the filename; the unused
`coursePart` binding of the source is omitted. -/
def draftScore (queryWords : List String) (course : Option String)
    (url : String) : Nat :=
  let urlLower := strLower url
  let urlParts := splitSlash url
  let category := if urlParts.length ≥ 2 then
      urlParts.getD (urlParts.length - 2) "" else ""
  let fileName := urlParts.getLastD ""
  let courseScore : Nat :=
    match course with
    | some ct => if jsIncludes urlLower ct then 10 else 0
    | none => 0
  let wordScore := queryWords.foldl (fun acc word =>
      acc + (if jsIncludes (strLower category) word then 5 else 0)
          + (if jsIncludes (strLower fileName) word then 3 else 0)
          + (if jsIncludes urlLower word then 1 else 0)) 0
  let pdfScore : Nat := if jsEndsWith (strLower fileName) ".pdf" then 2 else 0
  courseScore + wordScore + pdfScore

/-- `getRelevantUrls` of `src/unnamed/part_001` (lines 80-136): score,
filter to positive scores, stable descending sort, top 8, format
`icon [fileName](url)`. -/
def getRelevantUrlsDraft (query : String) (urls : List String) : List String :=
  if urls.isEmpty then [] else
  let q := strLower query
  let queryWords := (splitStr Char.isWhitespace q).filter (fun w => w.length > 2)
  let course := courseToken q
  let scored := urls.map (fun url => (url, draftScore queryWords course url))
  let sorted := (sortByScoreDesc Prod.snd
      (scored.filter (fun item => item.2 > 0))).map Prod.fst
  (sorted.take 8).map fun url =>
    let fileName := (splitSlash url).getLastD ""
    let fileType := strLower ((splitDot fileName).getLastD "")
    fileIcon fileType ++ " [" ++ decodeURIComp fileName ++ "](" ++ url ++ ")"

/-- A scored corpus entry of `getRelevantUrls` in `src/server.js`. -/
structure ScoredUrl where
  url : String
  score : Nat
  fileName : String
  fileType : String
deriving Repr, DecidableEq

/-- The scoring of one URL in `src/server.js` `getRelevantUrls`
(lines 79-125): image-intent bonus, whole-word / substring / URL matches
for every query token (no length filter, no course-code bonus, no PDF
bonus). -/
def serverScoreUrl (queryWords : List String)
    (isImageQuery : Bool) (url : String) : ScoredUrl :=
  let fileName := decodeURIComp ((splitSlash url).getLastD "")
  let fileNameLower := strLower fileName
  let fileType := strLower ((splitDot fileName).getLastD "")
  let imgScore : Nat := if isImageQuery && fileType ∈ imageExts then 5 else 0
  let words := (splitStr
      (fun c => c = '-' || c = '_' || c.isWhitespace) fileNameLower).filter
      (fun w => w ≠ "")
  let wordScore := queryWords.foldl (fun acc queryWord =>
      acc + (if words.any (fun w => jsIncludes w queryWord) then 3 else 0)
          + (if jsIncludes fileNameLower queryWord then 2 else 0)
          + (if jsIncludes (strLower url) queryWord then 1 else 0)) 0
  ⟨url, imgScore + wordScore, fileName, fileType⟩

/-- Display name used by `src/server.js`:
`fileName.split('.')[0].replace(/[-_]/g, ' ')`. -/
def serverDisplayName (fileName : String) : String :=
  String.mk (((splitDot fileName).getD 0 "").data.map
    fun c => if c = '-' || c = '_' then ' ' else c)

/-- `getRelevantUrls` of `src/server.js` (lines 67-143): score, filter to
positive scores, stable descending sort, top 5, format
`icon [displayName](url)`. -/
def getRelevantUrlsServer (query : String) (urls : List String) : List String :=
  if urls.isEmpty then [] else
  let queryLower := strLower query
  let isImageQuery := jsIncludes queryLower "image" || jsIncludes queryLower "picture"
      || jsIncludes queryLower "photo" || jsIncludes queryLower "show me"
  let queryWords := splitWs queryLower
  let scored := urls.map (serverScoreUrl queryWords isImageQuery)
  let sorted := sortByScoreDesc ScoredUrl.score
      (scored.filter (fun item => item.score > 0))
  (sorted.take 5).map fun item =>
    fileIcon item.fileType ++ " [" ++ serverDisplayName item.fileName ++
      "](" ++ item.url ++ ")"

/-! ## Credential and Verification Manager, OTP variant
(src/unnamed/part_003)

MongoDB collections are lists of records in insertion order: `findOne` is
`List.find?`, `create` appends, `findOneAndDelete` removes the first match.
bcrypt is opaque and collision-free; it is modelled by `bhash`, an
injective tag, with `bcompare plain stored` true exactly when `stored` is
the hash of `plain`.  `generateOTP` is a random draw, so the drawn code is
an input of each operation; `Date.now()` is the `now` input, in
milliseconds.  The opaque e-mail send is dropped (it does not touch the
store).  JWT issuance is opaque and omitted from responses, which the
claims never inspect beyond status, error and message. -/

/-- Model of `bcrypt.hash`: an irreversible but collision-free digest,
here an injective tag. -/
def bhash (s : String) : String := "$2b$" ++ s

/-- Model of `bcrypt.compare plain stored`. -/
def bcompare (plain stored : String) : Bool := stored == bhash plain

/-- The observable part of an HTTP response. -/
structure Resp where
  status : Nat
  error : Option String
  message : Option String
  needsVerification : Bool
deriving Repr, DecidableEq

def errResp (st : Nat) (e : String) : Resp := ⟨st, some e, none, false⟩

def msgResp (st : Nat) (m : String) : Resp := ⟨st, none, some m, false⟩

/-- A document of the `User` collection (part_003 schema: lowercased unique
email, bcrypt password, name, role, verification flag, creation time). -/
structure UserRec where
  email : String
  password : String
  name : String
  role : String
  isVerified : Bool
  createdAt : Nat
deriving Repr, DecidableEq

/-- A document of the `OTP` collection: email, hashed one-time code,
creation time (the schema auto-purges 60 seconds after `createdAt`). -/
structure OtpRec where
  email : String
  otp : String
  createdAt : Nat
deriving Repr, DecidableEq

structure Db where
  users : List UserRec
  otps : List OtpRec
deriving Repr, DecidableEq

/-- `User.findOne({ email })`. -/
def findUser (users : List UserRec) (e : String) : Option UserRec :=
  users.find? fun u => u.email == e

/-- `OTP.findOne({ email })`. -/
def findOtp (otps : List OtpRec) (e : String) : Option OtpRec :=
  otps.find? fun r => r.email == e

/-- `OTP.findOneAndDelete({ email })`: removes the first matching document. -/
def deleteOneOtp (otps : List OtpRec) (e : String) : List OtpRec :=
  match otps with
  | [] => []
  | r :: rest => if r.email == e then rest else r :: deleteOneOtp rest e

/-- `user.isVerified = true; await user.save()` after `User.findOne`:
updates the first matching document, if any. -/
def markFirstVerified (users : List UserRec) (e : String) : List UserRec :=
  match users with
  | [] => []
  | u :: rest =>
    if u.email == e then { u with isVerified := true } :: rest
    else u :: markFirstVerified rest e

/-- `existingUser.name = ...; password = ...; isVerified = true; save()`:
the update of the first matching document in `register`. -/
def overwriteFirstUser (users : List UserRec) (e name password : String) :
    List UserRec :=
  match users with
  | [] => []
  | u :: rest =>
    if u.email == e then
      { u with name := name, password := password, isVerified := true } :: rest
    else u :: overwriteFirstUser rest e name password

/-- `POST /send-otp` (part_003 lines 120-152).  `otp` is the code drawn by
`generateOTP`; the route hashes it, deletes any prior OTP document for the
(lowercased) email and stores the hash, then e-mails the plaintext. -/
def sendOtp (db : Db) (email : Option String) (otp : String) (now : Nat) :
    Resp × Db :=
  match email with
  | none => (errResp 400 "Email is required", db)
  | some e =>
    if e == "" then (errResp 400 "Email is required", db)
    else match findUser db.users (strLower e) with
    | none => (errResp 400 "Email not registered", db)
    | some _ =>
      let otps1 := deleteOneOtp db.otps (strLower e) ++
        [⟨strLower e, bhash otp, now⟩]
      (msgResp 200 "Verification code sent to your email",
       { db with otps := otps1 })

/-- `POST /resend-otp` (part_003 lines 193-219): same store effect as
`send-otp` but with no registered-user check. -/
def resendOtp (db : Db) (email : Option String) (otp : String) (now : Nat) :
    Resp × Db :=
  match email with
  | none => (errResp 400 "Email is required", db)
  | some e =>
    if e == "" then (errResp 400 "Email is required", db)
    else
      let otps1 := deleteOneOtp db.otps (strLower e) ++
        [⟨strLower e, bhash otp, now⟩]
      (msgResp 200 "Verification code resent to your email",
       { db with otps := otps1 })

/-- `POST /verify-otp` (part_003 lines 155-190).  Note that the route never
reads the clock: staleness is left entirely to the store's automatic
purge. -/
def verifyOtp (db : Db) (email otp : Option String) : Resp × Db :=
  match email, otp with
  | some e, some o =>
    if e == "" || o == "" then
      (errResp 400 "Email and verification code are required", db)
    else match findOtp db.otps (strLower e) with
    | none => (errResp 400 "Verification code expired or invalid", db)
    | some record =>
      if !bcompare o record.otp then
        (errResp 400 "Invalid verification code", db)
      else
        (msgResp 200 "Email verified successfully",
         ⟨markFirstVerified db.users (strLower e),
          deleteOneOtp db.otps (strLower e)⟩)
  | _, _ => (errResp 400 "Email and verification code are required", db)

/-- `POST /register` (part_003 lines 222-302). -/
def registerP3 (db : Db) (name email password otp : Option String)
    (now : Nat) : Resp × Db :=
  match name, email, password, otp with
  | some nm, some e, some pw, some o =>
    if nm == "" || e == "" || pw == "" || o == "" then
      (errResp 400 "All fields are required", db)
    else if pw.length < 6 then
      (errResp 400 "Password must be at least 6 characters long", db)
    else
      let existing := findUser db.users (strLower e)
      if (existing.map (fun u => u.isVerified)).getD false then
        (errResp 400 "Email already registered", db)
      else match findOtp db.otps (strLower e) with
      | none => (errResp 400 "Verification code expired or invalid", db)
      | some record =>
        if !bcompare o record.otp then
          (errResp 400 "Invalid verification code", db)
        else
          let otps1 := deleteOneOtp db.otps (strLower e)
          let users1 :=
            match existing with
            | some _ => overwriteFirstUser db.users (strLower e) nm (bhash pw)
            | none => db.users ++ [⟨strLower e, bhash pw, nm, "user", true, now⟩]
          (msgResp 201 "Registration successful", ⟨users1, otps1⟩)
  | _, _, _, _ => (errResp 400 "All fields are required", db)

/-- `POST /login` (part_003 lines 305-353): reads the store only. -/
def loginP3 (db : Db) (email password : Option String) : Resp :=
  match email, password with
  | some e, some pw =>
    if e == "" || pw == "" then errResp 400 "Email and password are required"
    else match findUser db.users (strLower e) with
    | none => errResp 400 "Invalid email or password"
    | some u =>
      if !u.isVerified then ⟨401, some "Email not verified", none, true⟩
      else if !bcompare pw u.password then
        errResp 400 "Invalid email or password"
      else msgResp 200 "Login successful"
  | _, _ => errResp 400 "Email and password are required"

/-- MongoDB's TTL sweep over the OTP collection (`expires: 60`): removes
documents 60 seconds past `createdAt`.  Advisory: it runs at its own
cadence, decoupled from the routes. -/
def purgeOtps (otps : List OtpRec) (now : Nat) : List OtpRec :=
  otps.filter fun r => now < r.createdAt + 60000

/-- The operations that touch the part_003 store, for stating invariants
over arbitrary operation sequences. -/
inductive AuthOp where
  | send (email : Option String) (otp : String) (now : Nat)
  | resend (email : Option String) (otp : String) (now : Nat)
  | verify (email otp : Option String)
  | reg (name email password otp : Option String) (now : Nat)
  | purge (now : Nat)

def applyOp (db : Db) : AuthOp → Db
  | .send e o n => (sendOtp db e o n).2
  | .resend e o n => (resendOtp db e o n).2
  | .verify e o => (verifyOtp db e o).2
  | .reg nm e pw o n => (registerP3 db nm e pw o n).2
  | .purge n => { db with otps := purgeOtps db.otps n }

def applyOps (db : Db) (ops : List AuthOp) : Db := ops.foldl applyOp db

/-- Number of live OTP documents stored for `e`. -/
def otpCount (otps : List OtpRec) (e : String) : Nat :=
  (otps.filter fun r => r.email == e).length

/-- At most one live code per email. -/
def OtpUnique (otps : List OtpRec) : Prop := ∀ e, otpCount otps e ≤ 1

/-! ## Credential and Verification Manager, numeric-code variant
(src/unnamed/part_000)

The code store is the in-memory `verificationCodes` JavaScript `Map`; a
`Map` keeps one value per key, `set` overwrites in place and `delete`
removes.  The stored value is the record of line 65-69: the **plaintext**
code, the pending user data and a timestamp.  The TTL is 10 minutes. -/

structure VerifData where
  code : String
  name : String
  email : String
  password : String
  timestamp : Nat
deriving Repr, DecidableEq

/-- The `verificationCodes` Map, as an association list in insertion
order. -/
abbrev CodeMap := List (String × VerifData)

def mapGet (m : CodeMap) (k : String) : Option VerifData :=
  (m.find? fun p => p.1 == k).map Prod.snd

def mapSet (m : CodeMap) (k : String) (v : VerifData) : CodeMap :=
  match m with
  | [] => [(k, v)]
  | p :: rest => if p.1 == k then (k, v) :: rest else p :: mapSet rest k v

def mapDelete (m : CodeMap) (k : String) : CodeMap :=
  match m with
  | [] => []
  | p :: rest => if p.1 == k then rest else p :: mapDelete rest k

/-- `POST /request-verification` (part_000 lines 51-84): stores the
plaintext code together with the pending registration payload. -/
def requestVerification (users : List UserRec) (codes : CodeMap)
    (name email password code : String) (now : Nat) : Resp × CodeMap :=
  match users.find? (fun u => u.email == email) with
  | some _ => (errResp 400 "Email already registered", codes)
  | none =>
    (msgResp 200 "Verification code sent successfully",
     mapSet codes email ⟨code, name, email, password, now⟩)

/-- `POST /verify-email` (part_000 lines 87-149).  Unlike `verify-otp`,
this route re-checks the wall clock (`Date.now() - timestamp > 600000`)
before trusting a record that the timed purge has not yet removed. -/
def verifyEmail (users : List UserRec) (codes : CodeMap)
    (email verificationCode : String) (now : Nat) :
    Resp × List UserRec × CodeMap :=
  match mapGet codes email with
  | none => (errResp 400 "Verification code expired or invalid", users, codes)
  | some vd =>
    if vd.code ≠ verificationCode then
      (errResp 400 "Invalid verification code", users, codes)
    else if 600000 < now - vd.timestamp then
      (errResp 400 "Verification code expired", users, mapDelete codes email)
    else
      (msgResp 200 "Email verified and registration completed",
       users ++ [⟨email, bhash vd.password, vd.name, "user", true, now⟩],
       mapDelete codes email)

/-- `POST /resend-code` (part_000 lines 152-185): refreshes the code and
timestamp of an existing entry (`{ ...existingVerification, code, timestamp }`),
keeping the pending user data. -/
def resendCode (codes : CodeMap) (email newCode : String) (now : Nat) :
    Resp × CodeMap :=
  match mapGet codes email with
  | none => (errResp 400 "No pending verification found", codes)
  | some existing =>
    (msgResp 200 "New verification code sent successfully",
     mapSet codes email { existing with code := newCode, timestamp := now })

/-- The operations that touch the part_000 `verificationCodes` Map: the
three routes plus the `setTimeout` deletion scheduled by request/resend. -/
inductive CodeOp where
  | request (users : List UserRec) (name email password code : String) (now : Nat)
  | verify (users : List UserRec) (email code : String) (now : Nat)
  | resend (email code : String) (now : Nat)
  | expire (email : String)

def applyCodeOp (codes : CodeMap) : CodeOp → CodeMap
  | .request us nm e pw c n => (requestVerification us codes nm e pw c n).2
  | .verify us e c n => (verifyEmail us codes e c n).2.2
  | .resend e c n => (resendCode codes e c n).2
  | .expire e => mapDelete codes e

def applyCodeOps (codes : CodeMap) (ops : List CodeOp) : CodeMap :=
  ops.foldl applyCodeOp codes

/-- Number of entries stored for key `k`. -/
def keyCount (m : CodeMap) (k : String) : Nat :=
  (m.filter fun p => p.1 == k).length

/-- At most one live code per email, part_000 variant. -/
def CodeMapUnique (m : CodeMap) : Prop := ∀ k, keyCount m k ≤ 1

/-! ## Login of src/auth-routes.js (lines 97-140)

This draft's `User` schema has no verification flag; both failure branches
answer 401 with the same body. -/

structure UserAR where
  email : String
  password : String
  name : String
  role : String
deriving Repr, DecidableEq

def loginAR (users : List UserAR) (email password : Option String) : Resp :=
  match email, password with
  | some e, some pw =>
    if e == "" || pw == "" then errResp 400 "Email and password are required"
    else match users.find? (fun u => u.email == e) with
    | none => errResp 401 "Invalid credentials"
    | some u =>
      if !bcompare pw u.password then errResp 401 "Invalid credentials"
      else msgResp 200 "Login successful"
  | _, _ => errResp 400 "Email and password are required"

/-- The corpus of the spec example (section 8). -/
def exCorpus : List String :=
  ["https://physicslabgmu.github.io/Lab_db/PHY161/pendulum_setup.jpg",
   "https://physicslabgmu.github.io/Lab_db/PHY260/ac_circuit.jpg",
   "https://physicslabgmu.github.io/Lab_db/PHY161/manual.pdf"]

def exQuery : String := "show me the pendulum image for phy 161"

/-- A demonstration schedule for the serializer: two requests, the second
arriving while the first call is in flight; each later call is started by
the cooldown timer. -/
def demoEvs : List SerEv :=
  [.arrive 1 0, .arrive 2 5, .complete 100, .timerFire 2100 2100,
   .complete 2200, .timerFire 4200 4300]

/-- The state `demoEvs` drives the serializer to (both calls answered, in
arrival order). -/
def demoFinal : SerState :=
  ⟨[], false, [], [], 4300, [1, 2], [(1, 0), (2, 2100)],
   [(1, 100), (2, 2200)]⟩

/-- The schedule on which the cooldown is bypassed: request 1 arrives at
t=0 and is called at once; its call settles at t=100; request 2 arrives at
t=150, during the cooldown window. -/
def bypassEvs : List SerEv := [.arrive 1 0, .complete 100, .arrive 2 150]

/-- The state `bypassEvs` produces: the call for request 2 starts at
t=150, though request 1 finished at t=100 and the 2000 ms timer is still
pending. -/
def bypassFinal : SerState :=
  ⟨[], true, [2], [2100], 150, [1, 2], [(1, 0), (2, 150)], [(1, 100)]⟩

/-- Store with one OTP document 100 seconds old (TTL is 60 seconds) that
the advisory purge has not yet removed, and the wall clock at 100000 ms. -/
def staleDb : Db := ⟨[], [⟨"a@x.com", bhash "111111", 0⟩]⟩

def staleNow : Nat := 100000

/-- Store used by the login witnesses: one verified and one unverified
account (part_003 schema), and one account in the auth-routes draft. -/
def loginDb : Db :=
  ⟨[⟨"v@x.com", bhash "secret1", "V", "user", true, 0⟩,
    ⟨"u@x.com", bhash "secret2", "U", "user", false, 0⟩], []⟩

def loginUsersAR : List UserAR := [⟨"v@x.com", bhash "secret1", "V", "user"⟩]

/-- Store used by the OTP witnesses: one registered (unverified) user and
one live hashed code for it. -/
def otpDb : Db :=
  ⟨[⟨"a@x.com", bhash "pw1234", "A", "user", false, 0⟩],
   [⟨"a@x.com", bhash "111111", 5⟩]⟩

/-- Mutual-exclusion invariant: at most one outbound call is in flight, and
the `isProcessing` flag is set exactly while one is. -/
def SerMutex (s : SerState) : Prop :=
  s.inFlight.length ≤ 1 ∧ (s.isProcessing = true ↔ s.inFlight ≠ [])

/-- FIFO invariant: settled responses, then the in-flight call, then the
queue, spell out the arrival log in order. -/
def SerFifo (s : SerState) : Prop :=
  s.completedCalls.map Prod.fst ++ s.inFlight ++ s.requestQueue = s.arrivals

theorem processQueueBody_mutex {s : SerState} (t : Nat) (hs : SerMutex s) :
    SerMutex (processQueueBody s t) := by
  unfold processQueueBody
  split
  · rename_i r rest hq hp
    rcases hs with ⟨h1, h2⟩
    have hfl : s.inFlight = [] := by
      by_contra hne
      have := h2.mpr hne
      rw [hp] at this
      exact Bool.false_ne_true this
    constructor
    · simp [hfl]
    · simp [hfl]
  · exact hs

theorem processQueueBody_fifo {s : SerState} (t : Nat) (hs : SerFifo s) :
    SerFifo (processQueueBody s t) := by
  unfold processQueueBody
  split
  · rename_i r rest hq hp
    show s.completedCalls.map Prod.fst ++ (s.inFlight ++ [r]) ++ rest = s.arrivals
    unfold SerFifo at hs
    rw [hq] at hs
    rw [← hs]
    simp [List.append_assoc]
  · exact hs

theorem serStep_mutex {s s' : SerState} (hs : SerMutex s) {e : SerEv}
    (h : serStep s e = some s') : SerMutex s' := by
  cases e with
  | arrive r t =>
    simp only [serStep] at h
    split at h
    · exact absurd h (by simp)
    · injection h with h
      subst h
      split
      · exact hs
      · exact processQueueBody_mutex t hs
  | complete t =>
    simp only [serStep] at h
    split at h
    · exact absurd h (by simp)
    · rename_i c rest hfl
      split at h
      · exact absurd h (by simp)
      · injection h with h
        subst h
        rcases hs with ⟨h1, _⟩
        rw [hfl] at h1
        have hrest : rest = [] := by
          simp only [List.length_cons] at h1
          exact List.eq_nil_of_length_eq_zero (by omega)
        constructor
        · simp [hrest]
        · simp [hrest]
  | timerFire tf t =>
    simp only [serStep] at h
    split at h
    · injection h with h
      subst h
      exact processQueueBody_mutex t hs
    · exact absurd h (by simp)

theorem serStep_fifo {s s' : SerState} (hs : SerFifo s) {e : SerEv}
    (h : serStep s e = some s') : SerFifo s' := by
  cases e with
  | arrive r t =>
    simp only [serStep] at h
    split at h
    · exact absurd h (by simp)
    · injection h with h
      subst h
      have hs1 : s.completedCalls.map Prod.fst ++ s.inFlight ++
          (s.requestQueue ++ [r]) = s.arrivals ++ [r] := by
        unfold SerFifo at hs
        rw [← hs]
        simp [List.append_assoc]
      split
      · exact hs1
      · exact processQueueBody_fifo t hs1
  | complete t =>
    simp only [serStep] at h
    split at h
    · exact absurd h (by simp)
    · rename_i c rest hfl
      split at h
      · exact absurd h (by simp)
      · injection h with h
        subst h
        show (s.completedCalls ++ [(c, t)]).map Prod.fst ++ rest ++
            s.requestQueue = s.arrivals
        unfold SerFifo at hs
        rw [hfl] at hs
        rw [← hs]
        simp [List.append_assoc]
  | timerFire tf t =>
    simp only [serStep] at h
    split at h
    · injection h with h
      subst h
      exact processQueueBody_fifo t hs
    · exact absurd h (by simp)

theorem serRun_mutex :
    ∀ (evs : List SerEv) (s s' : SerState),
      SerMutex s → serRun s evs = some s' → SerMutex s' := by
  intro evs
  induction evs with
  | nil =>
    intro s s' hs h
    have := Option.some.inj h
    subst this
    exact hs
  | cons e evs ih =>
    intro s s' hs h
    unfold serRun at h
    split at h
    · exact absurd h (by simp)
    · rename_i s1 hstep
      exact ih s1 s' (serStep_mutex hs hstep) h

theorem serRun_fifo :
    ∀ (evs : List SerEv) (s s' : SerState),
      SerFifo s → serRun s evs = some s' → SerFifo s' := by
  intro evs
  induction evs with
  | nil =>
    intro s s' hs h
    have := Option.some.inj h
    subst this
    exact hs
  | cons e evs ih =>
    intro s s' hs h
    unfold serRun at h
    split at h
    · exact absurd h (by simp)
    · rename_i s1 hstep
      exact ih s1 s' (serStep_fifo hs hstep) h

/-! ## Helper lemmas about the bcrypt model and the OTP store -/

theorem bhash_inj {a b : String} (h : bhash a = bhash b) : a = b := by
  unfold bhash at h
  have hd := congrArg String.data h
  rw [String.data_append, String.data_append] at hd
  exact String.ext (List.append_cancel_left hd)

theorem bhash_ne (s : String) : bhash s ≠ s := by
  intro h
  have hd : (bhash s).data = s.data := congrArg String.data h
  rw [bhash, String.data_append] at hd
  have hl := congrArg List.length hd
  rw [List.length_append] at hl
  have h4 : ("$2b$".data).length = 4 := by decide
  omega

theorem bcompare_self (o : String) : bcompare o (bhash o) = true := by
  simp [bcompare]

theorem bcompare_of_ne {o c : String} (h : c ≠ o) :
    bcompare o (bhash c) = false := by
  unfold bcompare
  exact beq_eq_false_iff_ne.mpr fun hh => h (bhash_inj hh)

theorem otpCount_append (l1 l2 : List OtpRec) (e : String) :
    otpCount (l1 ++ l2) e = otpCount l1 e + otpCount l2 e := by
  simp [otpCount, List.filter_append]

theorem otpCount_singleton_self (r : OtpRec) (h : r.email = e) :
    otpCount [r] e = 1 := by
  simp [otpCount, h]

theorem otpCount_singleton_ne (r : OtpRec) (h : r.email ≠ e) :
    otpCount [r] e = 0 := by
  simp [otpCount, h]

theorem otpCount_cons (r : OtpRec) (rest : List OtpRec) (e : String) :
    otpCount (r :: rest) e =
      (if r.email = e then 1 else 0) + otpCount rest e := by
  by_cases hre : r.email = e
  · simp [otpCount, List.filter_cons, hre]
    omega
  · simp [otpCount, List.filter_cons, hre]

theorem deleteOneOtp_cons_pos {r : OtpRec} {e : String}
    (rest : List OtpRec) (hre : r.email = e) :
    deleteOneOtp (r :: rest) e = rest := by
  simp [deleteOneOtp, hre]

theorem deleteOneOtp_cons_neg {r : OtpRec} {e : String}
    (rest : List OtpRec) (hre : ¬ r.email = e) :
    deleteOneOtp (r :: rest) e = r :: deleteOneOtp rest e := by
  simp [deleteOneOtp, hre]

theorem otpCount_deleteOne_self (otps : List OtpRec) (e : String) :
    otpCount (deleteOneOtp otps e) e = otpCount otps e - 1 := by
  induction otps with
  | nil => rfl
  | cons r rest ih =>
    by_cases hre : r.email = e
    · rw [deleteOneOtp_cons_pos rest hre, otpCount_cons, if_pos hre]
      omega
    · rw [deleteOneOtp_cons_neg rest hre, otpCount_cons, otpCount_cons,
        if_neg hre, ih]
      omega

theorem otpCount_deleteOne_ne (otps : List OtpRec) {e e' : String}
    (h : e' ≠ e) : otpCount (deleteOneOtp otps e) e' = otpCount otps e' := by
  induction otps with
  | nil => rfl
  | cons r rest ih =>
    by_cases hre : r.email = e
    · have hre' : ¬ r.email = e' := by
        rw [hre]
        exact fun hh => h hh.symm
      rw [deleteOneOtp_cons_pos rest hre, otpCount_cons, if_neg hre']
      omega
    · rw [deleteOneOtp_cons_neg rest hre, otpCount_cons, otpCount_cons, ih]

theorem otpCount_deleteOne_le (otps : List OtpRec) (e e' : String) :
    otpCount (deleteOneOtp otps e) e' ≤ otpCount otps e' := by
  by_cases h : e' = e
  · rw [h, otpCount_deleteOne_self]
    omega
  · rw [otpCount_deleteOne_ne otps h]

theorem otpCount_filter_le (p : OtpRec → Bool) (otps : List OtpRec)
    (e : String) : otpCount (otps.filter p) e ≤ otpCount otps e := by
  induction otps with
  | nil => exact Nat.le_refl _
  | cons r rest ih =>
    rw [List.filter_cons]
    by_cases hp : p r
    · rw [if_pos hp, otpCount_cons, otpCount_cons]
      exact Nat.add_le_add_left ih _
    · rw [if_neg hp, otpCount_cons]
      exact Nat.le_trans ih (Nat.le_add_left _ _)

theorem findOtp_eq_none_of_count {otps : List OtpRec} {e : String}
    (h : otpCount otps e = 0) : findOtp otps e = none := by
  induction otps with
  | nil => rfl
  | cons r rest ih =>
    rw [otpCount_cons] at h
    by_cases hre : r.email = e
    · rw [if_pos hre] at h
      exact absurd h (by omega)
    · rw [if_neg hre, Nat.zero_add] at h
      have hrest := ih h
      unfold findOtp at hrest ⊢
      have hb : (r.email == e) = false := beq_eq_false_iff_ne.mpr hre
      simp [List.find?_cons, hb, hrest]

theorem findOtp_append_none {l1 : List OtpRec} (l2 : List OtpRec)
    {e : String} (h : findOtp l1 e = none) :
    findOtp (l1 ++ l2) e = findOtp l2 e := by
  unfold findOtp at *
  rw [List.find?_append, h]
  rfl

theorem findOtp_singleton_self (r : OtpRec) (h : r.email = e) :
    findOtp [r] e = some r := by
  simp [findOtp, h]

theorem markFirstVerified_of_none {users : List UserRec} {e : String}
    (h : findUser users e = none) : markFirstVerified users e = users := by
  induction users with
  | nil => simp [markFirstVerified]
  | cons u rest ih =>
    by_cases hue : u.email = e
    · simp [findUser, hue] at h
    · simp [findUser, hue] at h
      have := ih (by simpa [findUser] using h)
      simp [markFirstVerified, hue, this]

theorem findUser_markFirstVerified {users : List UserRec} {e : String}
    {u : UserRec} (h : findUser users e = some u) :
    findUser (markFirstVerified users e) e =
      some { u with isVerified := true } := by
  induction users with
  | nil => simp [findUser] at h
  | cons v rest ih =>
    by_cases hve : v.email = e
    · simp [findUser, hve] at h
      subst h
      simp [markFirstVerified, findUser, hve]
    · simp [findUser, hve] at h
      have := ih (by simpa [findUser] using h)
      simp [markFirstVerified, findUser, hve]
      simpa [findUser] using this

theorem otpUnique_nil : OtpUnique [] := fun _ => Nat.zero_le 1

theorem otpUnique_singleton (r : OtpRec) : OtpUnique [r] := by
  intro e
  rw [otpCount_cons]
  by_cases hre : r.email = e
  · rw [if_pos hre]
    exact Nat.le_refl _
  · rw [if_neg hre]
    exact Nat.le_succ _

/-- The store effect shared by `send-otp` and `resend-otp`
(delete-then-insert) keeps at most one live code per email. -/
theorem sendStore_unique {otps : List OtpRec} (h : OtpUnique otps)
    (k hv : String) (n : Nat) :
    OtpUnique (deleteOneOtp otps k ++ [⟨k, hv, n⟩]) := by
  intro e
  rw [otpCount_append]
  by_cases hek : e = k
  · subst hek
    rw [otpCount_deleteOne_self, otpCount_singleton_self _ rfl]
    have := h e
    omega
  · rw [otpCount_deleteOne_ne _ hek,
      otpCount_singleton_ne _ (fun hh => hek hh.symm)]
    have := h e
    omega

theorem deleteStore_unique {otps : List OtpRec} (h : OtpUnique otps)
    (k : String) : OtpUnique (deleteOneOtp otps k) :=
  fun e => Nat.le_trans (otpCount_deleteOne_le otps k e) (h e)

theorem purgeStore_unique {otps : List OtpRec} (h : OtpUnique otps)
    (n : Nat) : OtpUnique (purgeOtps otps n) :=
  fun e => Nat.le_trans (otpCount_filter_le _ otps e) (h e)

theorem applyOp_unique {db : Db} (h : OtpUnique db.otps) (op : AuthOp) :
    OtpUnique (applyOp db op).otps := by
  cases op with
  | send email o n =>
    cases email with
    | none => simpa [applyOp, sendOtp] using h
    | some e =>
      by_cases he : (e == "") = true
      · simpa [applyOp, sendOtp, he] using h
      · simp only [Bool.not_eq_true] at he
        cases hfu : findUser db.users (strLower e) with
        | none => simpa [applyOp, sendOtp, he, hfu] using h
        | some u =>
          have := sendStore_unique h (strLower e) (bhash o) n
          simpa [applyOp, sendOtp, he, hfu] using this
  | resend email o n =>
    cases email with
    | none => simpa [applyOp, resendOtp] using h
    | some e =>
      by_cases he : (e == "") = true
      · simpa [applyOp, resendOtp, he] using h
      · simp only [Bool.not_eq_true] at he
        have := sendStore_unique h (strLower e) (bhash o) n
        simpa [applyOp, resendOtp, he] using this
  | verify email o =>
    cases email with
    | none => cases o <;> simpa [applyOp, verifyOtp] using h
    | some e =>
      cases o with
      | none => simpa [applyOp, verifyOtp] using h
      | some oo =>
        by_cases hc : (e == "" || oo == "") = true
        · simpa [applyOp, verifyOtp, hc] using h
        · simp only [Bool.not_eq_true] at hc
          cases hf : findOtp db.otps (strLower e) with
          | none => simpa [applyOp, verifyOtp, hc, hf] using h
          | some record =>
            by_cases hb : bcompare oo record.otp = true
            · have := deleteStore_unique h (strLower e)
              simpa [applyOp, verifyOtp, hc, hf, hb] using this
            · simp only [Bool.not_eq_true] at hb
              simpa [applyOp, verifyOtp, hc, hf, hb] using h
  | reg nm email pw o n =>
    cases nm with
    | none =>
      cases email <;> cases pw <;> cases o <;>
        simpa [applyOp, registerP3] using h
    | some vnm =>
      cases email with
      | none => cases pw <;> cases o <;> simpa [applyOp, registerP3] using h
      | some e =>
        cases pw with
        | none => cases o <;> simpa [applyOp, registerP3] using h
        | some vpw =>
          cases o with
          | none => simpa [applyOp, registerP3] using h
          | some vo =>
            by_cases h1 :
                (vnm == "" || e == "" || vpw == "" || vo == "") = true
            · simpa [applyOp, registerP3, h1] using h
            · simp only [Bool.not_eq_true] at h1
              by_cases h2 : vpw.length < 6
              · simpa [applyOp, registerP3, h1, h2] using h
              · by_cases h3 : ((findUser db.users (strLower e)).map
                    (fun u => u.isVerified)).getD false = true
                · simpa [applyOp, registerP3, h1, h2, h3] using h
                · simp only [Bool.not_eq_true] at h3
                  cases h4 : findOtp db.otps (strLower e) with
                  | none => simpa [applyOp, registerP3, h1, h2, h3, h4] using h
                  | some record =>
                    by_cases h5 : bcompare vo record.otp = true
                    · have hdel := deleteStore_unique h (strLower e)
                      cases h6 : findUser db.users (strLower e) with
                      | none =>
                        simpa [applyOp, registerP3, h1, h2, h3, h4, h5, h6]
                          using hdel
                      | some vu =>
                        have h3v : vu.isVerified = false := by
                          rw [h6] at h3
                          simpa using h3
                        simpa [applyOp, registerP3, h1, h2, h3v, h4, h5, h6]
                          using hdel
                    · simp only [Bool.not_eq_true] at h5
                      simpa [applyOp, registerP3, h1, h2, h3, h4, h5] using h
  | purge n =>
    have := purgeStore_unique h n
    simpa [applyOp] using this

theorem applyOps_unique :
    ∀ (ops : List AuthOp) (db : Db), OtpUnique db.otps →
      OtpUnique (applyOps db ops).otps := by
  intro ops
  induction ops with
  | nil =>
    intro db h
    exact h
  | cons op ops ih =>
    intro db h
    have hstep := applyOp_unique h op
    have := ih (applyOp db op) hstep
    simpa [applyOps, List.foldl_cons] using this

/-! ## Helper lemmas about the part_000 code Map -/

theorem mapSet_cons_pos {p : String × VerifData} {k : String}
    (rest : CodeMap) (v : VerifData) (hp : p.1 = k) :
    mapSet (p :: rest) k v = (k, v) :: rest := by
  simp [mapSet, hp]

theorem mapSet_cons_neg {p : String × VerifData} {k : String}
    (rest : CodeMap) (v : VerifData) (hp : ¬ p.1 = k) :
    mapSet (p :: rest) k v = p :: mapSet rest k v := by
  simp [mapSet, hp]

theorem mapDelete_cons_pos {p : String × VerifData} {k : String}
    (rest : CodeMap) (hp : p.1 = k) : mapDelete (p :: rest) k = rest := by
  simp [mapDelete, hp]

theorem mapDelete_cons_neg {p : String × VerifData} {k : String}
    (rest : CodeMap) (hp : ¬ p.1 = k) :
    mapDelete (p :: rest) k = p :: mapDelete rest k := by
  simp [mapDelete, hp]

theorem mapGet_mapSet_self (m : CodeMap) (k : String) (v : VerifData) :
    mapGet (mapSet m k v) k = some v := by
  induction m with
  | nil => simp [mapSet, mapGet]
  | cons p rest ih =>
    by_cases hp : p.1 = k
    · rw [mapSet_cons_pos rest v hp]
      simp [mapGet]
    · rw [mapSet_cons_neg rest v hp]
      have hb : (p.1 == k) = false := beq_eq_false_iff_ne.mpr hp
      unfold mapGet at ih ⊢
      simp [List.find?_cons, hb]
      simpa [mapGet] using ih

theorem keyCount_cons (p : String × VerifData) (rest : CodeMap)
    (k : String) :
    keyCount (p :: rest) k = (if p.1 = k then 1 else 0) + keyCount rest k := by
  by_cases hp : p.1 = k
  · simp [keyCount, List.filter_cons, hp]
    omega
  · simp [keyCount, List.filter_cons, hp]

theorem keyCount_mapSet_ne (m : CodeMap) {k k' : String} (h : k' ≠ k)
    (v : VerifData) : keyCount (mapSet m k v) k' = keyCount m k' := by
  induction m with
  | nil =>
    have hk : ¬ (k = k') := fun hh => h hh.symm
    simp [mapSet, keyCount, hk]
  | cons p rest ih =>
    by_cases hp : p.1 = k
    · rw [mapSet_cons_pos rest v hp, keyCount_cons, keyCount_cons]
      have h1 : ¬ ((k, v).1 = k') := fun hh => h hh.symm
      have h2 : ¬ (p.1 = k') := by
        rw [hp]
        exact fun hh => h hh.symm
      rw [if_neg h1, if_neg h2]
    · rw [mapSet_cons_neg rest v hp, keyCount_cons, keyCount_cons, ih]

theorem keyCount_mapSet_self {m : CodeMap} {k : String} (v : VerifData)
    (h : keyCount m k ≤ 1) : keyCount (mapSet m k v) k ≤ 1 := by
  induction m with
  | nil => simp [mapSet, keyCount]
  | cons p rest ih =>
    by_cases hp : p.1 = k
    · rw [mapSet_cons_pos rest v hp, keyCount_cons]
      rw [keyCount_cons, if_pos hp] at h
      have h1 : ((k, v) : String × VerifData).1 = k := rfl
      rw [if_pos h1]
      omega
    · rw [mapSet_cons_neg rest v hp, keyCount_cons, if_neg hp]
      rw [keyCount_cons, if_neg hp] at h
      have := ih (by omega)
      omega

theorem keyCount_mapDelete_le (m : CodeMap) (k k' : String) :
    keyCount (mapDelete m k) k' ≤ keyCount m k' := by
  induction m with
  | nil => exact Nat.le_refl _
  | cons p rest ih =>
    by_cases hp : p.1 = k
    · rw [mapDelete_cons_pos rest hp, keyCount_cons]
      exact Nat.le_add_left _ _
    · rw [mapDelete_cons_neg rest hp, keyCount_cons, keyCount_cons]
      exact Nat.add_le_add_left ih _

theorem codeMapUnique_nil : CodeMapUnique [] := fun _ => Nat.zero_le 1

theorem mapSetStore_unique {m : CodeMap} (h : CodeMapUnique m)
    (k : String) (v : VerifData) : CodeMapUnique (mapSet m k v) := by
  intro k'
  by_cases hk : k' = k
  · subst hk
    exact keyCount_mapSet_self v (h k')
  · rw [keyCount_mapSet_ne m hk v]
    exact h k'

theorem mapDeleteStore_unique {m : CodeMap} (h : CodeMapUnique m)
    (k : String) : CodeMapUnique (mapDelete m k) :=
  fun k' => Nat.le_trans (keyCount_mapDelete_le m k k') (h k')

theorem applyCodeOp_unique {codes : CodeMap} (h : CodeMapUnique codes)
    (op : CodeOp) : CodeMapUnique (applyCodeOp codes op) := by
  cases op with
  | request us nm e pw c n =>
    cases hf : us.find? (fun u => u.email == e) with
    | none =>
      have := mapSetStore_unique h e ⟨c, nm, e, pw, n⟩
      simpa [applyCodeOp, requestVerification, hf] using this
    | some u => simpa [applyCodeOp, requestVerification, hf] using h
  | verify us e c n =>
    cases hg : mapGet codes e with
    | none => simpa [applyCodeOp, verifyEmail, hg] using h
    | some vd =>
      by_cases hc : vd.code = c
      · by_cases hs : 600000 < n - vd.timestamp
        · have := mapDeleteStore_unique h e
          simpa [applyCodeOp, verifyEmail, hg, hc, hs] using this
        · have := mapDeleteStore_unique h e
          simpa [applyCodeOp, verifyEmail, hg, hc, hs] using this
      · simpa [applyCodeOp, verifyEmail, hg, hc] using h
  | resend e c n =>
    cases hg : mapGet codes e with
    | none => simpa [applyCodeOp, resendCode, hg] using h
    | some existing =>
      have := mapSetStore_unique h e
        { existing with code := c, timestamp := n }
      simpa [applyCodeOp, resendCode, hg] using this
  | expire e =>
    have := mapDeleteStore_unique h e
    simpa [applyCodeOp] using this

theorem applyCodeOps_unique :
    ∀ (ops : List CodeOp) (codes : CodeMap), CodeMapUnique codes →
      CodeMapUnique (applyCodeOps codes ops) := by
  intro ops
  induction ops with
  | nil =>
    intro codes h
    exact h
  | cons op ops ih =>
    intro codes h
    have hstep := applyCodeOp_unique h op
    have := ih (applyCodeOp codes op) hstep
    simpa [applyCodeOps, List.foldl_cons] using this

/-! ## The claims -/

/-- C1.  The claim says the call for queue item N+1 always starts at least
`RATE_LIMIT_DELAY` (2000 ms) after the call for item N settles, even when a
request is enqueued during the cooldown.  The code violates this: the
`finally` block clears `isProcessing` immediately on settlement, before the
timer fires, so the chat handler starts the next call at once for a request
arriving inside the cooldown window.  On the schedule `bypassEvs` the call
for request 2 starts 50 ms — not 2000 ms — after request 1 settles,
contradicting the source's own `RATE_LIMIT_DELAY ... 2 seconds between
requests` comment. -/
theorem serializer_cooldown_bypass :
    serRun serInit bypassEvs = some bypassFinal ∧
    bypassFinal.completedCalls = [(1, 100)] ∧
    bypassFinal.startedCalls = [(1, 0), (2, 150)] ∧
    150 < 100 + RATE_LIMIT_DELAY := by decide

/-- C2.  Responses are resolved in exactly arrival order: in every state
reachable by any schedule of arrivals, call settlements and timer firings,
the sequence of settled requests is an initial segment of the sequence of
enqueued requests — requests are never reordered or batched. -/
theorem serializer_fifo_order (evs : List SerEv) (s : SerState)
    (h : serRun serInit evs = some s) :
    ∃ pending, s.completedCalls.map Prod.fst ++ pending = s.arrivals := by
  have hf := serRun_fifo evs serInit s rfl h
  refine ⟨s.inFlight ++ s.requestQueue, ?_⟩
  rw [← List.append_assoc]
  exact hf

/-- Witness for C2: on the schedule `demoEvs`, requests 1 and 2 arrive in
that order and are answered in that order. -/
theorem serializer_fifo_order_witness :
    ∃ pending,
      demoFinal.completedCalls.map Prod.fst ++ pending = demoFinal.arrivals :=
  serializer_fifo_order demoEvs demoFinal (by decide)

/-- C3.  In every reachable state of the serializer at most one call to the
external generation function is in flight, and the `isProcessing` flag is
set exactly for the duration of an outbound call, so no second drain can
begin while one is in flight. -/
theorem serializer_mutual_exclusion (evs : List SerEv) (s : SerState)
    (h : serRun serInit evs = some s) :
    s.inFlight.length ≤ 1 ∧ (s.isProcessing = true ↔ s.inFlight ≠ []) :=
  serRun_mutex evs serInit s ⟨Nat.zero_le 1, by simp [serInit]⟩ h

/-- Witness for C3 at the schedule `demoEvs`. -/
theorem serializer_mutual_exclusion_witness :
    demoFinal.inFlight.length ≤ 1 ∧
      (demoFinal.isProcessing = true ↔ demoFinal.inFlight ≠ []) :=
  serializer_mutual_exclusion demoEvs demoFinal (by decide)

/-- C4.  With a live code record for an email, `verify-otp` with a code
whose hash does not match answers 400 Invalid and leaves the store
untouched, so a subsequent `verify-otp` with the correct code still
succeeds. -/
theorem verifyOtp_wrong_code_preserves_record (db : Db)
    (e wrong correct : String) (record : OtpRec)
    (he : e ≠ "") (hw : wrong ≠ "") (hc : correct ≠ "")
    (hfind : findOtp db.otps (strLower e) = some record)
    (hstored : record.otp = bhash correct)
    (hmismatch : bhash wrong ≠ record.otp) :
    verifyOtp db (some e) (some wrong)
        = (errResp 400 "Invalid verification code", db)
    ∧ (verifyOtp db (some e) (some correct)).1
        = msgResp 200 "Email verified successfully" := by
  have he' : (e == "") = false := beq_eq_false_iff_ne.mpr he
  have hw' : (wrong == "") = false := beq_eq_false_iff_ne.mpr hw
  have hc' : (correct == "") = false := beq_eq_false_iff_ne.mpr hc
  have h1 : bcompare wrong record.otp = false := by
    unfold bcompare
    exact beq_eq_false_iff_ne.mpr fun hh => hmismatch hh.symm
  have h2 : bcompare correct record.otp = true := by
    rw [hstored]
    exact bcompare_self correct
  constructor
  · simp [verifyOtp, he', hw', hfind, h1]
  · simp [verifyOtp, he', hc', hfind, h2]

/-- Witness for C4 on the concrete store `otpDb` (stored hash of 111111;
222222 is the wrong code). -/
theorem verifyOtp_wrong_code_preserves_record_witness :
    verifyOtp otpDb (some "a@x.com") (some "222222")
        = (errResp 400 "Invalid verification code", otpDb)
    ∧ (verifyOtp otpDb (some "a@x.com") (some "111111")).1
        = msgResp 200 "Email verified successfully" :=
  verifyOtp_wrong_code_preserves_record otpDb "a@x.com" "222222" "111111"
    ⟨"a@x.com", bhash "111111", 5⟩ (by decide) (by decide) (by decide)
    (by decide) (by decide) (by decide)

/-- C5.  In both cited variants, at most one live code record per email is
preserved by every sequence of store operations, and a second code request
overwrites the first code so that verifying with the first code afterwards
fails (with the Invalid error, the codes being distinct): for the part_003
OTP collection (send/resend/verify/register routes plus the TTL purge, and
`send-otp` twice), and for the part_000 `verificationCodes` Map
(request/verify/resend routes plus the timed deletion, and
`request-verification` twice). -/
theorem otp_single_live_code :
    (∀ (db : Db) (ops : List AuthOp), OtpUnique db.otps →
        OtpUnique (applyOps db ops).otps)
    ∧ (∀ (db : Db) (e otp1 otp2 : String) (n1 n2 : Nat) (u : UserRec),
        e ≠ "" → otp1 ≠ "" → otp1 ≠ otp2 →
        findUser db.users (strLower e) = some u → OtpUnique db.otps →
        (verifyOtp
            (sendOtp (sendOtp db (some e) otp1 n1).2 (some e) otp2 n2).2
            (some e) (some otp1)).1
          = errResp 400 "Invalid verification code")
    ∧ (∀ (codes : CodeMap) (ops : List CodeOp), CodeMapUnique codes →
        CodeMapUnique (applyCodeOps codes ops))
    ∧ (∀ (users : List UserRec) (codes : CodeMap)
        (name1 name2 email pw1 pw2 code1 code2 : String) (n1 n2 now : Nat),
        code1 ≠ code2 →
        users.find? (fun u => u.email == email) = none →
        (verifyEmail users
            (requestVerification users
              (requestVerification users codes name1 email pw1 code1 n1).2
              name2 email pw2 code2 n2).2
            email code1 now).1
          = errResp 400 "Invalid verification code") := by
  refine ⟨?_, ?_, ?_, ?_⟩
  · intro db ops hu
    exact applyOps_unique ops db hu
  · intro db e otp1 otp2 n1 n2 u he h1 hne hfu huniq
    have he' : (e == "") = false := beq_eq_false_iff_ne.mpr he
    have h1' : (otp1 == "") = false := beq_eq_false_iff_ne.mpr h1
    have hdb1 : (sendOtp db (some e) otp1 n1).2
        = { db with otps := deleteOneOtp db.otps (strLower e) ++
            [⟨strLower e, bhash otp1, n1⟩] } := by
      simp [sendOtp, he', hfu]
    have hfu1 : findUser (sendOtp db (some e) otp1 n1).2.users (strLower e)
        = some u := by
      rw [hdb1]
      exact hfu
    have hdb2 : (sendOtp (sendOtp db (some e) otp1 n1).2 (some e) otp2 n2).2
        = { db with otps :=
            deleteOneOtp (deleteOneOtp db.otps (strLower e) ++
              [⟨strLower e, bhash otp1, n1⟩]) (strLower e) ++
            [⟨strLower e, bhash otp2, n2⟩] } := by
      rw [sendOtp, he']
      simp only [Bool.false_eq_true, if_false, hfu1]
      rw [hdb1]
    have hcount1 : otpCount (deleteOneOtp db.otps (strLower e) ++
        [⟨strLower e, bhash otp1, n1⟩]) (strLower e) = 1 := by
      rw [otpCount_append, otpCount_deleteOne_self,
        otpCount_singleton_self _ rfl]
      have := huniq (strLower e)
      omega
    have hzero : otpCount (deleteOneOtp (deleteOneOtp db.otps (strLower e) ++
        [⟨strLower e, bhash otp1, n1⟩]) (strLower e)) (strLower e) = 0 := by
      rw [otpCount_deleteOne_self, hcount1]
    have hfind2 : findOtp (deleteOneOtp (deleteOneOtp db.otps (strLower e) ++
        [⟨strLower e, bhash otp1, n1⟩]) (strLower e) ++
        [⟨strLower e, bhash otp2, n2⟩]) (strLower e)
        = some ⟨strLower e, bhash otp2, n2⟩ := by
      rw [findOtp_append_none _ (findOtp_eq_none_of_count hzero)]
      exact findOtp_singleton_self _ rfl
    have hbc : bcompare otp1 (bhash otp2) = false :=
      bcompare_of_ne fun hh => hne hh.symm
    rw [hdb2]
    simp [verifyOtp, he', h1', hfind2, hbc]
  · intro codes ops hu
    exact applyCodeOps_unique ops codes hu
  · intro users codes name1 name2 email pw1 pw2 code1 code2 n1 n2 now
      hne hfu
    have h1 : (requestVerification users codes name1 email pw1 code1 n1).2
        = mapSet codes email ⟨code1, name1, email, pw1, n1⟩ := by
      simp [requestVerification, hfu]
    have h2 : (requestVerification users
          (mapSet codes email ⟨code1, name1, email, pw1, n1⟩)
          name2 email pw2 code2 n2).2
        = mapSet (mapSet codes email ⟨code1, name1, email, pw1, n1⟩)
            email ⟨code2, name2, email, pw2, n2⟩ := by
      simp [requestVerification, hfu]
    rw [h1, h2]
    have hget := mapGet_mapSet_self
      (mapSet codes email ⟨code1, name1, email, pw1, n1⟩)
      email ⟨code2, name2, email, pw2, n2⟩
    have hcne : code2 ≠ code1 := fun hh => hne hh.symm
    simp [verifyEmail, hget, hcne]

/-- Witness for C5: concrete operation sequences keep both stores unique,
on `otpDb` the first of two sent OTP codes is rejected, and after two
`request-verification` calls the first numeric code is rejected. -/
theorem otp_single_live_code_witness :
    OtpUnique (applyOps otpDb [AuthOp.send (some "a@x.com") "333333" 7]).otps
    ∧ (verifyOtp
        (sendOtp (sendOtp otpDb (some "a@x.com") "111111" 1).2
          (some "a@x.com") "222222" 2).2
        (some "a@x.com") (some "111111")).1
      = errResp 400 "Invalid verification code"
    ∧ CodeMapUnique (applyCodeOps []
        [CodeOp.request [] "A" "b@x.com" "pw123" "111111" 0,
         CodeOp.request [] "A" "b@x.com" "pw123" "222222" 1])
    ∧ (verifyEmail []
        (requestVerification []
          (requestVerification [] [] "A" "b@x.com" "pw123" "111111" 0).2
          "A" "b@x.com" "pw123" "222222" 1).2
        "b@x.com" "111111" 2).1
      = errResp 400 "Invalid verification code" :=
  ⟨otp_single_live_code.1 otpDb [AuthOp.send (some "a@x.com") "333333" 7]
      (otpUnique_singleton _),
   otp_single_live_code.2.1 otpDb "a@x.com" "111111" "222222" 1 2
      ⟨"a@x.com", bhash "pw1234", "A", "user", false, 0⟩
      (by decide) (by decide) (by decide) (by decide)
      (otpUnique_singleton _),
   otp_single_live_code.2.2.1 []
      [CodeOp.request [] "A" "b@x.com" "pw123" "111111" 0,
       CodeOp.request [] "A" "b@x.com" "pw123" "222222" 1]
      codeMapUnique_nil,
   otp_single_live_code.2.2.2 [] [] "A" "A" "b@x.com" "pw123" "pw123"
      "111111" "222222" 0 1 2 (by decide) (by decide)⟩

/-- C6.  The claim says every verification re-checks the wall clock against
the TTL, independently of the store's purge.  It fails on `verify-otp`
(part_003): the route has no clock parameter at all.  Here the one stored
record is 100 seconds old (TTL 60 s) and not yet purged, and `verify-otp`
accepts it with 200 instead of rejecting it as expired. -/
theorem verifyOtp_accepts_stale_record :
    staleDb.otps = [⟨"a@x.com", bhash "111111", 0⟩]
    ∧ 60000 < staleNow - 0
    ∧ verifyOtp staleDb (some "a@x.com") (some "111111")
        = (msgResp 200 "Email verified successfully", ⟨[], []⟩) := by decide

/-- C6 (amended).  Only the numeric-code variant (`verify-email`,
part_000) performs the explicit wall-clock comparison: a record the purge
has not yet removed but whose age exceeds the 10-minute TTL is rejected
with the Expired error (and deleted), even though its code matches. -/
theorem verifyEmail_wall_clock_expiry (users : List UserRec)
    (codes : CodeMap) (email c : String) (now : Nat) (vd : VerifData)
    (hget : mapGet codes email = some vd) (hcode : vd.code = c)
    (hstale : 600000 < now - vd.timestamp) :
    verifyEmail users codes email c now
      = (errResp 400 "Verification code expired", users,
         mapDelete codes email) := by
  simp [verifyEmail, hget, hcode, hstale]

/-- Witness for the amended C6: a 700-second-old record with the matching
code is rejected as expired. -/
theorem verifyEmail_wall_clock_expiry_witness :
    verifyEmail [] [("b@x.com", ⟨"123456", "B", "b@x.com", "pw123", 0⟩)]
        "b@x.com" "123456" 700001
      = (errResp 400 "Verification code expired", [], []) :=
  verifyEmail_wall_clock_expiry [] _ "b@x.com" "123456" 700001
    ⟨"123456", "B", "b@x.com", "pw123", 0⟩ (by decide) (by decide) (by decide)

/-- C7.  The claim says `requestCode` stores only an irreversible hash of
the code, never the plaintext.  It fails on `request-verification`
(part_000): the stored map record holds the plaintext code (and the
plaintext password of the pending registration). -/
theorem requestVerification_stores_plaintext :
    (mapGet (requestVerification [] [] "A" "a@x.com" "hunter2" "123456" 0).2
        "a@x.com").map VerifData.code = some "123456"
    ∧ (mapGet (requestVerification [] [] "A" "a@x.com" "hunter2" "123456" 0).2
        "a@x.com").map VerifData.password = some "hunter2" := by decide

/-- C7 (amended).  Only the OTP variant behaves as claimed: `send-otp`
stores exactly the bcrypt hash of the drawn code (which differs from the
plaintext) keyed by the lowercased email, after deleting any prior
record. -/
theorem sendOtp_stores_hash_only (db : Db) (e otp : String) (now : Nat)
    (u : UserRec) (he : e ≠ "")
    (hfu : findUser db.users (strLower e) = some u) :
    (sendOtp db (some e) otp now).2.otps
      = deleteOneOtp db.otps (strLower e) ++ [⟨strLower e, bhash otp, now⟩]
    ∧ bhash otp ≠ otp := by
  have he' : (e == "") = false := beq_eq_false_iff_ne.mpr he
  exact ⟨by simp [sendOtp, he', hfu], bhash_ne otp⟩

/-- Witness for the amended C7 on `otpDb`. -/
theorem sendOtp_stores_hash_only_witness :
    (sendOtp otpDb (some "a@x.com") "999999" 9).2.otps
      = deleteOneOtp otpDb.otps (strLower "a@x.com") ++
        [⟨strLower "a@x.com", bhash "999999", 9⟩]
    ∧ bhash "999999" ≠ "999999" :=
  sendOtp_stores_hash_only otpDb "a@x.com" "999999" 9
    ⟨"a@x.com", bhash "pw1234", "A", "user", false, 0⟩
    (by decide) (by decide)

/-- C8.  Login answers with one identical error body whether the email is
unregistered or the password hash does not match — in the part_003 login
(400, `Invalid email or password`) and in the auth-routes login (401,
`Invalid credentials`) — and in part_003 an existing unverified account
gets 401 with the machine-readable `needsVerification` flag. -/
theorem login_uniform_errors :
    (∀ (db : Db) (e pw : String), e ≠ "" → pw ≠ "" →
        findUser db.users (strLower e) = none →
        loginP3 db (some e) (some pw) = errResp 400 "Invalid email or password")
    ∧ (∀ (db : Db) (e pw : String) (u : UserRec), e ≠ "" → pw ≠ "" →
        findUser db.users (strLower e) = some u → u.isVerified = true →
        bcompare pw u.password = false →
        loginP3 db (some e) (some pw) = errResp 400 "Invalid email or password")
    ∧ (∀ (db : Db) (e pw : String) (u : UserRec), e ≠ "" → pw ≠ "" →
        findUser db.users (strLower e) = some u → u.isVerified = false →
        loginP3 db (some e) (some pw)
          = ⟨401, some "Email not verified", none, true⟩)
    ∧ (∀ (users : List UserAR) (e pw : String), e ≠ "" → pw ≠ "" →
        users.find? (fun u => u.email == e) = none →
        loginAR users (some e) (some pw) = errResp 401 "Invalid credentials")
    ∧ (∀ (users : List UserAR) (e pw : String) (u : UserAR),
        e ≠ "" → pw ≠ "" →
        users.find? (fun u => u.email == e) = some u →
        bcompare pw u.password = false →
        loginAR users (some e) (some pw) = errResp 401 "Invalid credentials") := by
  refine ⟨?_, ?_, ?_, ?_, ?_⟩
  · intro db e pw he hp hfu
    have he' : (e == "") = false := beq_eq_false_iff_ne.mpr he
    have hp' : (pw == "") = false := beq_eq_false_iff_ne.mpr hp
    simp [loginP3, he', hp', hfu]
  · intro db e pw u he hp hfu hv hb
    have he' : (e == "") = false := beq_eq_false_iff_ne.mpr he
    have hp' : (pw == "") = false := beq_eq_false_iff_ne.mpr hp
    simp [loginP3, he', hp', hfu, hv, hb]
  · intro db e pw u he hp hfu hv
    have he' : (e == "") = false := beq_eq_false_iff_ne.mpr he
    have hp' : (pw == "") = false := beq_eq_false_iff_ne.mpr hp
    simp [loginP3, he', hp', hfu, hv]
  · intro users e pw he hp hfu
    have he' : (e == "") = false := beq_eq_false_iff_ne.mpr he
    have hp' : (pw == "") = false := beq_eq_false_iff_ne.mpr hp
    simp [loginAR, he', hp', hfu]
  · intro users e pw u he hp hfu hb
    have he' : (e == "") = false := beq_eq_false_iff_ne.mpr he
    have hp' : (pw == "") = false := beq_eq_false_iff_ne.mpr hp
    simp [loginAR, he', hp', hfu, hb]

/-- Witness for C8 on `loginDb` / `loginUsersAR`: the unknown-email and
wrong-password bodies coincide in both drafts, and the unverified account
gets the flagged 401. -/
theorem login_uniform_errors_witness :
    loginP3 loginDb (some "nobody@x.com") (some "whatever")
        = errResp 400 "Invalid email or password"
    ∧ loginP3 loginDb (some "v@x.com") (some "wrong1")
        = errResp 400 "Invalid email or password"
    ∧ loginP3 loginDb (some "u@x.com") (some "secret2")
        = ⟨401, some "Email not verified", none, true⟩
    ∧ loginAR loginUsersAR (some "nobody@x.com") (some "whatever")
        = errResp 401 "Invalid credentials"
    ∧ loginAR loginUsersAR (some "v@x.com") (some "wrong1")
        = errResp 401 "Invalid credentials" :=
  ⟨login_uniform_errors.1 loginDb "nobody@x.com" "whatever"
      (by decide) (by decide) (by decide),
   login_uniform_errors.2.1 loginDb "v@x.com" "wrong1"
      ⟨"v@x.com", bhash "secret1", "V", "user", true, 0⟩
      (by decide) (by decide) (by decide) (by decide) (by decide),
   login_uniform_errors.2.2.1 loginDb "u@x.com" "secret2"
      ⟨"u@x.com", bhash "secret2", "U", "user", false, 0⟩
      (by decide) (by decide) (by decide) (by decide),
   login_uniform_errors.2.2.2.1 loginUsersAR "nobody@x.com" "whatever"
      (by decide) (by decide) (by decide),
   login_uniform_errors.2.2.2.2 loginUsersAR "v@x.com" "wrong1"
      ⟨"v@x.com", bhash "secret1", "V", "user"⟩
      (by decide) (by decide) (by decide) (by decide)⟩

/-- C9.  The claim says both scorers put `manual.pdf` above
`ac_circuit.jpg` on the example query thanks to the course-code bonus.
The `src/server.js` scorer has no course-code bonus, and on the example it
ranks `ac_circuit.jpg` (score 6) strictly above `manual.pdf` (score 2),
refuting the claim for that variant. -/
theorem serverScorer_ranks_manual_below_ac :
    getRelevantUrlsServer exQuery exCorpus =
      ["🖼️ [pendulum setup](https://physicslabgmu.github.io/Lab_db/PHY161/pendulum_setup.jpg)",
       "🖼️ [ac circuit](https://physicslabgmu.github.io/Lab_db/PHY260/ac_circuit.jpg)",
       "📄 [manual](https://physicslabgmu.github.io/Lab_db/PHY161/manual.pdf)"] := by
  decide

/-- C9 (amended).  On the example corpus and query, both scorers rank
`pendulum_setup.jpg` first; the part_001 scorer (the one with the +10
course-code bonus) also ranks `manual.pdf` above `ac_circuit.jpg`, while
the server.js scorer does not. -/
theorem scorer_example_rankings :
    getRelevantUrlsDraft exQuery exCorpus =
      ["🖼️ [pendulum_setup.jpg](https://physicslabgmu.github.io/Lab_db/PHY161/pendulum_setup.jpg)",
       "📄 [manual.pdf](https://physicslabgmu.github.io/Lab_db/PHY161/manual.pdf)",
       "🖼️ [ac_circuit.jpg](https://physicslabgmu.github.io/Lab_db/PHY260/ac_circuit.jpg)"]
    ∧ (getRelevantUrlsServer exQuery exCorpus).take 1 =
      ["🖼️ [pendulum setup](https://physicslabgmu.github.io/Lab_db/PHY161/pendulum_setup.jpg)"] := by
  decide

/-- C10.  When the supplied code matches the stored hash, `verify-otp`
answers 200 even if no user record exists for the email (the user store is
then untouched), and when a user record does exist it is unconditionally
marked verified — no pending-registration payload is consulted (part_003
has none). -/
theorem verifyOtp_succeeds_without_user (db : Db) (e o : String)
    (record : OtpRec) (he : e ≠ "") (ho : o ≠ "")
    (hfind : findOtp db.otps (strLower e) = some record)
    (hstored : record.otp = bhash o) :
    (verifyOtp db (some e) (some o)).1
        = msgResp 200 "Email verified successfully"
    ∧ (findUser db.users (strLower e) = none →
        (verifyOtp db (some e) (some o)).2.users = db.users)
    ∧ (∀ u, findUser db.users (strLower e) = some u →
        findUser (verifyOtp db (some e) (some o)).2.users (strLower e)
          = some { u with isVerified := true }) := by
  have he' : (e == "") = false := beq_eq_false_iff_ne.mpr he
  have ho' : (o == "") = false := beq_eq_false_iff_ne.mpr ho
  have h2 : bcompare o record.otp = true := by
    rw [hstored]
    exact bcompare_self o
  have hout : verifyOtp db (some e) (some o)
      = (msgResp 200 "Email verified successfully",
         ⟨markFirstVerified db.users (strLower e),
          deleteOneOtp db.otps (strLower e)⟩) := by
    simp [verifyOtp, he', ho', hfind, h2]
  refine ⟨by rw [hout], ?_, ?_⟩
  · intro hnone
    rw [hout]
    exact markFirstVerified_of_none hnone
  · intro u hsome
    rw [hout]
    exact findUser_markFirstVerified hsome

/-- Witness for C10 on `otpDb` (its one user exists and starts
unverified). -/
theorem verifyOtp_succeeds_without_user_witness :
    (verifyOtp otpDb (some "a@x.com") (some "111111")).1
        = msgResp 200 "Email verified successfully"
    ∧ (findUser otpDb.users (strLower "a@x.com") = none →
        (verifyOtp otpDb (some "a@x.com") (some "111111")).2.users
          = otpDb.users)
    ∧ (∀ u, findUser otpDb.users (strLower "a@x.com") = some u →
        findUser (verifyOtp otpDb (some "a@x.com") (some "111111")).2.users
            (strLower "a@x.com")
          = some { u with isVerified := true }) :=
  verifyOtp_succeeds_without_user otpDb "a@x.com" "111111"
    ⟨"a@x.com", bhash "111111", 5⟩ (by decide) (by decide)
    (by decide) (by decide)

end LabBackend
